import Mathlib

/-!
Shallow embedding of the AMR trend-analysis dashboard (src/5_dashboard_app.py)
and verification of its specification claims.

Strings are handled through their character lists so that every operation is
an executable Lean function mirroring the corresponding pandas / Python string
operation used by the dashboard.
-/

/-- Character-list prefix test (mirrors matching a pattern at the start of a
Python string slice). -/
def isPrefixL : List Char → List Char → Bool
  | [], _ => true
  | _ :: _, [] => false
  | a :: as, b :: bs => a == b && isPrefixL as bs

/-- Substring test over character lists: `pat` occurs somewhere in `s`
(mirrors Python `pat in s` / `str.contains` with a literal pattern). -/
def containsSubL (pat : List Char) : List Char → Bool
  | [] => pat.isEmpty
  | c :: rest => isPrefixL pat (c :: rest) || containsSubL pat rest

/-- ASCII lowercasing of a character list (mirrors Python `str.lower` on the
ASCII keywords used by the dashboard). -/
def toLowerL (s : List Char) : List Char := s.map Char.toLower

/-- Worker for `replaceAllL`, structurally recursive on a fuel that bounds
the length of the remaining text (so that the kernel can evaluate it). -/
def replaceAllGo (pat rep : List Char) : Nat → List Char → List Char
  | _, [] => []
  | 0, s => s
  | fuel + 1, c :: rest =>
    if pat.length = 0 then c :: replaceAllGo pat rep fuel rest
    else if isPrefixL pat (c :: rest) then
      rep ++ replaceAllGo pat rep fuel (rest.drop (pat.length - 1))
    else c :: replaceAllGo pat rep fuel rest

/-- Left-to-right non-overlapping replacement of `pat` by `rep`
(mirrors Python `str.replace(pat, rep)` for a non-empty literal pattern). -/
def replaceAllL (pat rep : List Char) (s : List Char) : List Char :=
  replaceAllGo pat rep s.length s

/-- Python `s.split(sep)` for a single-character separator: empty pieces are
kept, and the empty string splits to one empty piece. -/
def splitOnCharL (sep : Char) : List Char → List (List Char)
  | [] => [[]]
  | c :: rest =>
    match splitOnCharL sep rest with
    | [] => [[]]
    | g :: gs => if c == sep then [] :: g :: gs else (c :: g) :: gs

/-- Digits of a decimal numeral folded into a natural number. -/
def digitsToNat (ds : List Char) : Nat :=
  ds.foldl (fun a c => a * 10 + (c.toNat - 48)) 0

/-- Python `int(s)` on a plain decimal numeral: `none` models the
`ValueError` raised on anything else. -/
def parseDigits (ds : List Char) : Option Nat :=
  if ds.isEmpty then none
  else if ds.all Char.isDigit then some (digitsToNat ds) else none

/-- Python `int(s)` including an optional sign. -/
def parseIntL : List Char → Option Int
  | '-' :: ds => (parseDigits ds).map (fun n => -(n : Int))
  | '+' :: ds => (parseDigits ds).map (fun n => (n : Int))
  | ds => (parseDigits ds).map (fun n => (n : Int))

/-- The regex test `str.contains(r"Topic_\d+")` of the loader: the text
contains `"Topic_"` immediately followed by a digit. -/
def hasTopicUnderscoreL : List Char → Bool
  | [] => false
  | c :: rest =>
    (isPrefixL ("Topic_".data) (c :: rest) &&
      (match (c :: rest).drop 6 with
       | d :: _ => d.isDigit
       | [] => false)) || hasTopicUnderscoreL rest

/-- String-level wrapper of `hasTopicUnderscoreL`. -/
def hasTopicUnderscore (s : String) : Bool := hasTopicUnderscoreL s.data

/-- String-level wrapper of `replaceAllL`. -/
def replaceAllStr (pat rep s : String) : String :=
  String.mk (replaceAllL pat.data rep.data s.data)

/-- Literal case-insensitive substring containment - the notion the
specification uses to describe the keyword step. The code itself performs a
regular-expression search (`kwMatch`); the two agree exactly on keywords
free of regex metacharacters. -/
def containsCI (kw text : String) : Bool :=
  containsSubL (toLowerL kw.data) (toLowerL text.data)

/-- Models the sort-key extraction of the aggregation step (line 129 of
the dashboard), Python int applied to the second space-separated token:
`none` models the `IndexError` / `ValueError` raised when that token is
absent or not an integer. -/
def extractTopicId (s : String) : Option Int :=
  match splitOnCharL ' ' s.data with
  | _ :: second :: _ => parseIntL second
  | _ => none

/-- A parsed calendar date (the result of a successful `pd.to_datetime`). -/
structure Date where
  year : Int
  month : Nat
  day : Nat
deriving DecidableEq

/-- One row of the loaded table, after the Loader has run. -/
structure Row where
  publication_date : Date
  publication_year : Int
  combined_text : Option String
  dominant_topic : String
deriving DecidableEq

/-- The raw `dominant_topic` column as read from the CSV: pandas gives it
either a numeric dtype or an object (string) dtype. -/
inductive TopicCol where
  | numeric (ks : List Int)
  | textual (ss : List String)
deriving DecidableEq

/-- The raw CSV contents relevant to the Loader: a date column, the optional
free-text column (`none` is a missing value), and the `dominant_topic`
column, which may be absent altogether (`none`). -/
structure RawTable where
  publication_date : List String
  combined_text : List (Option String)
  dominant_topic : Option TopicCol

/-- One textual `dominant_topic` value under the loader's underscore branch:
when the column-level flag is set, `"Topic_"` is rewritten to `"Topic "`
(no index shift); otherwise the value passes through unchanged. -/
def normTextualVal (flag : Bool) (s : String) : String :=
  if flag then replaceAllStr "Topic_" "Topic " s else s

/-- Column-level normalization of `dominant_topic` (lines 29-39 of the
dashboard): a numeric column `k` becomes `"Topic " ++ toString (k+1)`;
a textual column is passed through `str.replace("Topic_", "Topic ")` when
some value matches `Topic_\d+`, and is left unchanged otherwise. -/
def normalizeTopics : TopicCol → List String
  | .numeric ks => ks.map (fun k => "Topic " ++ toString (k + 1))
  | .textual ss => ss.map (normTextualVal (ss.any hasTopicUnderscore))

/-- Rows kept after `pd.to_datetime(..., errors="coerce")` and
`dropna(subset=["publication_date", "publication_year"])`: a row survives
exactly when its date parses. -/
def keptRows (parse : String → Option Date) (dates : List String)
    (cts : List (Option String)) (tvals : List α) :
    List (Date × Option String × α) :=
  (dates.zip (cts.zip tvals)).filterMap
    (fun p => (parse p.1).map (fun d => (d, p.2.1, p.2.2)))

/-- Builds a loaded row: `publication_year` is derived as the calendar year
of the parsed `publication_date` (`dt.year` then `astype(int)`). -/
def mkRow (d : Date) (ct : Option String) (tp : String) : Row :=
  { publication_date := d, publication_year := d.year,
    combined_text := ct, dominant_topic := tp }

/-- The fatal message shown when the `dominant_topic` column is absent. -/
def missingTopicColMsg : String :=
  "Error: The dominant_topic column was not found in the data."

/-- The Loader, `load_data` (lines 13-41 of the dashboard). Date parsing is
abstracted as `parse` (the behaviour of `pd.to_datetime` on one value).
`Except.error` models `st.error` followed by `st.stop` - the halt when the
`dominant_topic` column is missing; the check observably precedes every use
of the topic column, the filters and the charts. -/
def load_data (parse : String → Option Date) (raw : RawTable) :
    Except String (List Row) :=
  match raw.dominant_topic with
  | none => .error missingTopicColMsg
  | some (.numeric ks) =>
    let kept := keptRows parse raw.publication_date raw.combined_text ks
    .ok (kept.map (fun q => mkRow q.1 q.2.1 ("Topic " ++ toString (q.2.2 + 1))))
  | some (.textual ss) =>
    let kept := keptRows parse raw.publication_date raw.combined_text ss
    let flag := (kept.map (fun q => q.2.2)).any hasTopicUnderscore
    .ok (kept.map (fun q => mkRow q.1 q.2.1 (normTextualVal flag q.2.2)))

/-- Models line 66, int of the minimum of the year column: `none` models
the `NaN` produced by `min` on an empty column, on which the `int(...)`
coercion raises. -/
def min_pub_year (t : List Row) : Option Int :=
  (t.map (fun r => r.publication_year)).min?

/-- Models line 67, int of the maximum of the year column. -/
def max_pub_year (t : List Row) : Option Int :=
  (t.map (fun r => r.publication_year)).max?

/-- Filter step 1 (lines 95-98): inclusive year range. -/
def filterYear (y0 y1 : Int) (t : List Row) : List Row :=
  t.filter (fun r => decide (y0 ≤ r.publication_year) && decide (r.publication_year ≤ y1))

/-- One atom of the regex fragment this embedding models: a literal
character or the wildcard dot. -/
inductive RegAtom where
  | lit (c : Char)
  | dot
deriving DecidableEq

/-- The Python `re` metacharacters other than the dot. A keyword containing
one of these is outside the fragment this embedding models (according to
`re`, such a keyword is a quantifier, anchor, class, group, alternation or
escape - or invalid, raising `re.error`). -/
def reMetachars : List Char :=
  ['^', '$', '*', '+', '?', '{', '}', '[', ']', '|', '(', ')', '\\']

/-- Parser for the modelled regex fragment: a plain character is a literal
atom, a dot is the wildcard, and any other `re` metacharacter puts the
keyword outside the fragment (`none`). -/
def parseRegexFragment : List Char → Option (List RegAtom)
  | [] => some []
  | c :: rest =>
    if c ∈ reMetachars then none
    else if c = '.' then (parseRegexFragment rest).map (fun as => RegAtom.dot :: as)
    else (parseRegexFragment rest).map (fun as => RegAtom.lit c :: as)

/-- Whether one atom matches one text character, case-insensitively
(`re.IGNORECASE`, from `case=False`). -/
def atomMatches (a : RegAtom) (c : Char) : Bool :=
  match a with
  | .lit l => l.toLower == c.toLower
  | .dot => true

/-- Whether the atom sequence matches at the start of the text. -/
def matchAtomsAt : List RegAtom → List Char → Bool
  | [], _ => true
  | _ :: _, [] => false
  | a :: as, c :: cs => atomMatches a c && matchAtomsAt as cs

/-- `re.search` over the modelled fragment: the atom sequence matches at
some position of the text. -/
def reSearch (pat : List RegAtom) : List Char → Bool
  | [] => matchAtomsAt pat []
  | c :: rest => matchAtomsAt pat (c :: rest) || reSearch pat rest

/-- The row predicate of `Series.str.contains(keyword, case=False, na=False)`
(line 102): pandas treats the keyword as a regular expression (`regex=True`
is the default) searched case-insensitively anywhere in the text, and a
missing `combined_text` never matches (`na=False`). The regex dialect is
modelled on the fragment `parseRegexFragment` covers; a keyword outside the
fragment is outside this model (the claims are stated on the fragment only,
and the `false` returned below for such a keyword stands in for no program
behaviour). -/
def kwMatch (kw : String) : Option String → Bool
  | none => false
  | some s =>
    match parseRegexFragment kw.data with
    | some pat => reSearch pat s.data
    | none => false

/-- Filter step 2 (lines 100-103): applied only when the keyword is
non-empty (`if keyword_filter:`). -/
def filterKeyword (kw : String) (t : List Row) : List Row :=
  if kw = "" then t else t.filter (fun r => kwMatch kw r.combined_text)

/-- Filter step 3 (lines 105-107): applied only when the topic selection is
non-empty (`if selected_topics:`); an empty selection skips the step. -/
def filterTopics (sel : List String) (t : List Row) : List Row :=
  if sel = [] then t else t.filter (fun r => sel.contains r.dominant_topic)

/-- The whole Filter Engine, `filtered_df` (lines 95-107): year range, then
keyword, then topic membership. -/
def filtered_df (t : List Row) (y0 y1 : Int) (kw : String) (sel : List String) :
    List Row :=
  filterTopics sel (filterKeyword kw (filterYear y0 y1 t))

/-- The Topic Catalog, `TOPIC_LABELS` (lines 46-57). -/
def TOPIC_LABELS : List (String × String) :=
  [("Topic 1", "Genomics & Genetics (sequencing, virulence, methicillin resistance)"),
   ("Topic 2", "Clinical Infections & Patient Management (hospital, treatment, risk)"),
   ("Topic 3", "Microbiota & Phages (intestinal, microbial community, mouse)"),
   ("Topic 4", "Antimicrobial Activity & Biofilms (antibacterial, cell, effect, protein)"),
   ("Topic 5", "Resistance Genes & Plasmids (colistin, carbapenem, multidrug)"),
   ("Topic 6", "Antimicrobial Resistance (AMR) & Public Health (use, review, disease)"),
   ("Topic 7", "Antimicrobial Peptides (AMPs) & Vaccines (COVID, insight)"),
   ("Topic 8", "Tuberculosis & Drug Resistance (mutation, HIV, mycobacterium)"),
   ("Topic 9", "Isolates, Susceptibility & Prevalence (strain, E. coli, sample study)"),
   ("Topic 10", "Probiotics & Urinary Tract Infections (UTI, defense, treatment failure)")]

/-- Label lookup `Series.map(TOPIC_LABELS).fillna("Unknown")` on one
topic key. -/
def describeTopic (k : String) : String :=
  (TOPIC_LABELS.lookup k).getD "Unknown"

/-- One row of the `yearly_topic_counts` frame (lines 123-129): the group
key, its size, the descriptive label, and the numeric sort key. -/
structure YTRow where
  publication_year : Int
  dominant_topic : String
  count : Nat
  dominant_topic_label : String
  dominant_topic_id : Int
deriving DecidableEq

/-- One row of the `topic_distribution` frame (lines 168-171). -/
structure TDRow where
  topic : String
  count : Nat
  topic_label : String
deriving DecidableEq

/-- Effectful map over a list where each element may fail; `none` as soon as
any element fails. Models a pandas `apply` whose lambda may raise. -/
def optionMapM (f : α → Option β) : List α → Option (List β)
  | [] => some []
  | a :: as =>
    match f a, optionMapM f as with
    | some b, some bs => some (b :: bs)
    | _, _ => none

/-- The size of one group: the number of occurrences of the key in the
column (`groupby(...).size()` / `value_counts()` for that key). -/
def countEq [DecidableEq α] (l : List α) (a : α) : Nat :=
  l.countP (fun x => decide (x = a))

/-- The distinct `(publication_year, dominant_topic)` group keys of
`groupby(["publication_year", "dominant_topic"]).size()`. The display
ordering of groups is presentation-only and not modelled. -/
def yearTopicKeys (t : List Row) : List (Int × String) :=
  (t.map (fun r => (r.publication_year, r.dominant_topic))).dedup

/-- The aggregate `yearly_topic_counts` (lines 123-129): group sizes by
(year, topic), descriptive label with `"Unknown"` fallback, and the numeric
sort key, whose extraction failure on any group key makes the whole
computation fail (`none`). -/
def yearly_topic_counts (t : List Row) : Option (List YTRow) :=
  optionMapM
    (fun k =>
      (extractTopicId k.2).map (fun i =>
        { publication_year := k.1, dominant_topic := k.2,
          count := countEq (t.map (fun r => (r.publication_year, r.dominant_topic))) k,
          dominant_topic_label := describeTopic k.2,
          dominant_topic_id := i }))
    (yearTopicKeys t)

/-- The distinct `dominant_topic` keys of `value_counts()`. -/
def topicKeys (t : List Row) : List String :=
  (t.map (fun r => r.dominant_topic)).dedup

/-- The aggregate `topic_distribution` (lines 168-171): `value_counts` of
the topic column with the descriptive label and `"Unknown"` fallback. The
display ordering by descending count is presentation-only and not
modelled. -/
def topic_distribution (t : List Row) : List TDRow :=
  (topicKeys t).map (fun k =>
    { topic := k,
      count := countEq (t.map (fun r => r.dominant_topic)) k,
      topic_label := describeTopic k })

/-- The invariant shape the specification states for a normalized topic
code: literally the string `"Topic "` followed by the decimal numeral of a
positive integer. -/
def isTopicForm (s : String) : Prop :=
  ∃ n : Nat, 1 ≤ n ∧ s = "Topic " ++ toString n

/-- A concrete stand-in for `pd.to_datetime` on one value, used by the
concrete witnesses: the string `"bad"` is unparseable, everything else
parses to 2020-01-01. -/
def testParse (s : String) : Option Date :=
  if s = "bad" then none else some { year := 2020, month := 1, day := 1 }

/-- A sample loaded row used by the concrete witnesses. -/
def row2020 : Row :=
  { publication_date := { year := 2020, month := 1, day := 1 },
    publication_year := 2020,
    combined_text := some "MRSA bloodstream infection study",
    dominant_topic := "Topic 1" }

/-- A second sample row, different year and topic, missing text. -/
def row2019 : Row :=
  { publication_date := { year := 2019, month := 1, day := 1 },
    publication_year := 2019,
    combined_text := none,
    dominant_topic := "Topic 2" }

/-- A row whose topic code is not of the `"Topic <n>"` shape. -/
def rowBanana : Row :=
  { publication_date := { year := 2020, month := 1, day := 1 },
    publication_year := 2020,
    combined_text := some "unrelated text",
    dominant_topic := "banana" }

/-- A raw table whose textual topic column holds a value the loader leaves
untouched. -/
def rawBanana : RawTable :=
  { publication_date := ["2020-05-05"],
    combined_text := [some "unrelated text"],
    dominant_topic := some (.textual ["banana"]) }

/-- A raw table with no `dominant_topic` column. -/
def rawNoTopic : RawTable :=
  { publication_date := ["2020-05-05"],
    combined_text := [some "text"],
    dominant_topic := none }

/-- A raw table all of whose dates are unparseable. -/
def rawAllBad : RawTable :=
  { publication_date := ["bad", "bad"],
    combined_text := [some "a", none],
    dominant_topic := some (.numeric [0, 1]) }

/-- A raw numeric-topic table with one unparseable date. -/
def rawNumeric : RawTable :=
  { publication_date := ["2019", "bad", "2020"],
    combined_text := [some "MRSA study", none, some "phage work"],
    dominant_topic := some (.numeric [0, 3, 1]) }

/-- The length of a raw `dominant_topic` column. -/
def topicLen : TopicCol → Nat
  | .numeric ks => ks.length
  | .textual ss => ss.length

/-- A row whose topic key is well-formed but not in the Topic Catalog. -/
def rowTopic11 : Row :=
  { publication_date := { year := 2020, month := 1, day := 1 },
    publication_year := 2020,
    combined_text := none,
    dominant_topic := "Topic 11" }

/-- The first row the Loader produces from `rawNumeric` under `testParse`. -/
def loadedNumericRow1 : Row :=
  { publication_date := { year := 2020, month := 1, day := 1 },
    publication_year := 2020,
    combined_text := some "MRSA study",
    dominant_topic := "Topic 1" }

/-- The second row the Loader produces from `rawNumeric` under `testParse`. -/
def loadedNumericRow2 : Row :=
  { publication_date := { year := 2020, month := 1, day := 1 },
    publication_year := 2020,
    combined_text := some "phage work",
    dominant_topic := "Topic 2" }

/-- The table the Loader produces from `rawNumeric` under `testParse` (the
row with the unparseable date is dropped; codes 0 and 1 shift to
`"Topic 1"` and `"Topic 2"`). -/
def loadedNumeric : List Row := [loadedNumericRow1, loadedNumericRow2]

/-- The single aggregate row of `yearly_topic_counts [rowTopic11]`. -/
def ytTopic11 : YTRow :=
  { publication_year := 2020, dominant_topic := "Topic 11", count := 1,
    dominant_topic_label := "Unknown", dominant_topic_id := 11 }

/-! ### Helper lemmas about the string machinery -/

theorem isPrefixL_subset : ∀ (p s : List Char), isPrefixL p s = true → ∀ a ∈ p, a ∈ s := by
  intro p
  induction p with
  | nil => intro s _ a ha; simp at ha
  | cons x xs ih =>
    intro s h a ha
    cases s with
    | nil => simp [isPrefixL] at h
    | cons b bs =>
      simp only [isPrefixL, Bool.and_eq_true, beq_iff_eq] at h
      rcases List.mem_cons.mp ha with rfl | hmem
      · exact h.1 ▸ List.mem_cons_self _ _
      · exact List.mem_cons_of_mem _ (ih bs h.2 a hmem)

theorem isPrefixL_append_self : ∀ (p t : List Char), isPrefixL p (p ++ t) = true := by
  intro p t
  induction p with
  | nil => rfl
  | cons x xs ih => simp [isPrefixL, ih]

theorem replaceAllGo_fuel (pat rep : List Char) :
    ∀ (f1 f2 : Nat) (s : List Char), s.length ≤ f1 → s.length ≤ f2 →
      replaceAllGo pat rep f1 s = replaceAllGo pat rep f2 s := by
  intro f1
  induction f1 with
  | zero =>
    intro f2 s h1 _
    have hs : s = [] := List.eq_nil_of_length_eq_zero (Nat.le_zero.mp h1)
    subst hs
    cases f2 <;> rfl
  | succ f ih =>
    intro f2 s h1 h2
    cases s with
    | nil => cases f2 <;> rfl
    | cons c rest =>
      cases f2 with
      | zero => simp at h2
      | succ g =>
        have hrf : rest.length ≤ f := by simpa using h1
        have hrg : rest.length ≤ g := by simpa using h2
        have hdf : (rest.drop (pat.length - 1)).length ≤ f :=
          le_trans (by simp [List.length_drop]) hrf
        have hdg : (rest.drop (pat.length - 1)).length ≤ g :=
          le_trans (by simp [List.length_drop]) hrg
        simp only [replaceAllGo]
        by_cases hp : pat.length = 0
        · simp [hp, ih g rest hrf hrg]
        · by_cases hpre : isPrefixL pat (c :: rest) = true
          · simp [hp, hpre, ih g _ hdf hdg]
          · simp [hp, hpre, ih g rest hrf hrg]

theorem replaceAllL_cons (pat rep : List Char) (c : Char) (rest : List Char) :
    replaceAllL pat rep (c :: rest) =
      if pat.length = 0 then c :: replaceAllL pat rep rest
      else if isPrefixL pat (c :: rest) then
        rep ++ replaceAllL pat rep (rest.drop (pat.length - 1))
      else c :: replaceAllL pat rep rest := by
  show replaceAllGo pat rep (rest.length + 1) (c :: rest) = _
  simp only [replaceAllGo]
  by_cases hp : pat.length = 0
  · simp [hp, replaceAllL]
  · by_cases hpre : isPrefixL pat (c :: rest) = true
    · simp only [hp, hpre, if_neg, if_pos, if_false, if_true]
      rw [replaceAllL, replaceAllGo_fuel pat rep rest.length (rest.drop (pat.length - 1)).length]
      · simp [List.length_drop]
      · exact Nat.le_refl _
    · simp [hp, hpre, replaceAllL]

theorem replaceAllL_eq_self (pat rep : List Char) (ch : Char) (hch : ch ∈ pat) :
    ∀ s : List Char, ch ∉ s → replaceAllL pat rep s = s := by
  intro s
  induction s with
  | nil => intro _; rfl
  | cons c rest ih =>
    intro hns
    rw [replaceAllL_cons]
    have hlen : ¬ pat.length = 0 := by
      intro h0
      rw [List.length_eq_zero] at h0
      subst h0
      simp at hch
    have hpre : ¬ isPrefixL pat (c :: rest) = true := fun hp =>
      hns (isPrefixL_subset pat (c :: rest) hp ch hch)
    rw [if_neg hlen, if_neg (by simpa using hpre)]
    have : ch ∉ rest := fun h => hns (List.mem_cons_of_mem _ h)
    rw [ih this]

theorem replaceAllL_append_self (pat rep t : List Char) (hne : pat ≠ []) :
    replaceAllL pat rep (pat ++ t) = rep ++ replaceAllL pat rep t := by
  cases pat with
  | nil => exact absurd rfl hne
  | cons p pr =>
    rw [show (p :: pr) ++ t = p :: (pr ++ t) from rfl, replaceAllL_cons]
    rw [if_neg (by simp)]
    have hpre : isPrefixL (p :: pr) (p :: (pr ++ t)) = true :=
      isPrefixL_append_self (p :: pr) t
    rw [if_pos hpre]
    rw [show (p :: pr).length - 1 = pr.length from by simp]
    rw [List.drop_left pr t]

theorem hasTopicUnderscoreL_of_parts (s : List Char)
    (h1 : isPrefixL ("Topic_".data) s = true)
    (h2 : (match s.drop 6 with | d :: _ => d.isDigit | [] => false) = true) :
    hasTopicUnderscoreL s = true := by
  cases s with
  | nil =>
    rw [show ("Topic_".data) = ['T', 'o', 'p', 'i', 'c', '_'] from rfl] at h1
    simp [isPrefixL] at h1
  | cons c rest =>
    simp only [hasTopicUnderscoreL, h1, h2, Bool.and_self, Bool.true_or]

theorem hasTopicUnderscore_of_topicUnderscore (d : String) (hne : d.data ≠ [])
    (hdig : ∀ c ∈ d.data, c.isDigit = true) :
    hasTopicUnderscore ("Topic_" ++ d) = true := by
  unfold hasTopicUnderscore
  rw [String.data_append]
  apply hasTopicUnderscoreL_of_parts
  · exact isPrefixL_append_self ("Topic_".data) d.data
  · have h6 : ("Topic_".data ++ d.data).drop 6 = d.data := by
      rw [show (6 : Nat) = ("Topic_".data).length from rfl, List.drop_left]
    rw [h6]
    cases hd : d.data with
    | nil => exact absurd hd hne
    | cons c tl =>
      have : c.isDigit = true := hdig c (by rw [hd]; exact List.mem_cons_self _ _)
      simpa using this

/-! ### Helper lemmas about `optionMapM`, `filterMap` and `keptRows` -/

theorem optionMapM_isSome (f : α → Option β) :
    ∀ l : List α, (∀ a ∈ l, (f a).isSome = true) → (optionMapM f l).isSome = true := by
  intro l
  induction l with
  | nil => intro _; rfl
  | cons a as ih =>
    intro h
    have ha : (f a).isSome = true := h a (List.mem_cons_self _ _)
    obtain ⟨b, hb⟩ := Option.isSome_iff_exists.mp ha
    have has : (optionMapM f as).isSome = true :=
      ih (fun x hx => h x (List.mem_cons_of_mem _ hx))
    obtain ⟨bs, hbs⟩ := Option.isSome_iff_exists.mp has
    simp [optionMapM, hb, hbs]

theorem optionMapM_mem (f : α → Option β) :
    ∀ (l : List α) (l' : List β), optionMapM f l = some l' →
      ∀ b ∈ l', ∃ a ∈ l, f a = some b := by
  intro l
  induction l with
  | nil =>
    intro l' h b hb
    simp only [optionMapM, Option.some.injEq] at h
    subst h
    simp at hb
  | cons a as ih =>
    intro l' h b hb
    cases hfa : f a with
    | none => simp [optionMapM, hfa] at h
    | some b0 =>
      cases hrec : optionMapM f as with
      | none => simp [optionMapM, hfa, hrec] at h
      | some bs =>
        simp only [optionMapM, hfa, hrec, Option.some.injEq] at h
        subst h
        rcases List.mem_cons.mp hb with rfl | hmem
        · exact ⟨a, List.mem_cons_self _ _, hfa⟩
        · obtain ⟨a0, ha0, hfa0⟩ := ih bs hrec b hmem
          exact ⟨a0, List.mem_cons_of_mem _ ha0, hfa0⟩

theorem optionMapM_map_proj (f : α → Option β) (g : β → γ) (h : α → γ)
    (hgh : ∀ a b, f a = some b → g b = h a) :
    ∀ (l : List α) (l' : List β), optionMapM f l = some l' → l'.map g = l.map h := by
  intro l
  induction l with
  | nil =>
    intro l' hl
    simp only [optionMapM, Option.some.injEq] at hl
    subst hl
    rfl
  | cons a as ih =>
    intro l' hl
    cases hfa : f a with
    | none => simp [optionMapM, hfa] at hl
    | some b0 =>
      cases hrec : optionMapM f as with
      | none => simp [optionMapM, hfa, hrec] at hl
      | some bs =>
        simp only [optionMapM, hfa, hrec, Option.some.injEq] at hl
        subst hl
        simp only [List.map_cons]
        rw [hgh a b0 hfa, ih bs hrec]

theorem length_filterMap_eq_countP (f : α → Option β) :
    ∀ l : List α, (l.filterMap f).length = l.countP (fun a => (f a).isSome) := by
  intro l
  induction l with
  | nil => rfl
  | cons a as ih =>
    rw [List.filterMap_cons, List.countP_cons]
    cases hfa : f a with
    | none => simp [hfa, ih]
    | some b => simp [hfa, ih]

theorem keptRows_topic_mem {parse : String → Option Date} {dates : List String}
    {cts : List (Option String)} {tvals : List α} {q : Date × Option String × α}
    (hq : q ∈ keptRows parse dates cts tvals) : q.2.2 ∈ tvals := by
  unfold keptRows at hq
  rw [List.mem_filterMap] at hq
  obtain ⟨p, hp, hfp⟩ := hq
  obtain ⟨ds, ct, tv⟩ := p
  cases hparse : parse ds with
  | none => rw [hparse] at hfp; simp at hfp
  | some d =>
    rw [hparse] at hfp
    simp only [Option.map_some', Option.some.injEq] at hfp
    have hmem := (List.of_mem_zip ((List.of_mem_zip hp).2)).2
    rw [← hfp]
    exact hmem

/-! ### Helper lemmas about the filter steps -/

theorem filter_swap (p q : α → Bool) (l : List α) :
    (l.filter p).filter q = (l.filter q).filter p := by
  rw [List.filter_filter, List.filter_filter]
  exact List.filter_congr (fun a _ => Bool.and_comm (q a) (p a))

theorem filterYear_filterKeyword_comm (y0 y1 : Int) (kw : String) (t : List Row) :
    filterYear y0 y1 (filterKeyword kw t) = filterKeyword kw (filterYear y0 y1 t) := by
  by_cases h : kw = ""
  · simp [filterKeyword, h]
  · simp only [filterKeyword, if_neg h, filterYear]
    exact filter_swap _ _ t

theorem filterYear_filterTopics_comm (y0 y1 : Int) (sel : List String) (t : List Row) :
    filterYear y0 y1 (filterTopics sel t) = filterTopics sel (filterYear y0 y1 t) := by
  by_cases h : sel = []
  · simp [filterTopics, h]
  · simp only [filterTopics, if_neg h, filterYear]
    exact filter_swap _ _ t

theorem filterKeyword_filterTopics_comm (kw : String) (sel : List String) (t : List Row) :
    filterKeyword kw (filterTopics sel t) = filterTopics sel (filterKeyword kw t) := by
  by_cases h : kw = ""
  · simp [filterKeyword, h]
  · by_cases h2 : sel = []
    · simp [filterTopics, h2]
    · simp only [filterKeyword, filterTopics, if_neg h, if_neg h2]
      exact filter_swap _ _ t

/-! ### C1 -/

/-- C1, counterexample: the claim says an empty selected-topic set yields
zero rows for every table, year range and keyword; but on a one-row table
with a fitting year range and empty keyword the Filter Engine with an empty
selection returns the whole table, which is not empty. -/
theorem C1_empty_selection_counterexample :
    filtered_df [row2020] 2019 2021 "" [] = [row2020] ∧
    filtered_df [row2020] 2019 2021 "" [] ≠ [] := by
  constructor
  · decide
  · decide

/-- C1, amended: when the set of selected topic keys is empty the topic
step is skipped (`if selected_topics:` is false), so the Filter Engine
returns the year- and keyword-filtered table unchanged rather than the
empty set. -/
theorem C1_empty_selection_skips_topic_filter (t : List Row) (y0 y1 : Int) (kw : String) :
    filtered_df t y0 y1 kw [] = filterKeyword kw (filterYear y0 y1 t) := by
  simp [filtered_df, filterTopics]

/-! ### C5 -/

theorem parseRegexFragment_literal :
    ∀ cs : List Char, (∀ c ∈ cs, c ∉ reMetachars ∧ c ≠ '.') →
      parseRegexFragment cs = some (cs.map RegAtom.lit) := by
  intro cs
  induction cs with
  | nil => intro _; rfl
  | cons c rest ih =>
    intro h
    have hc := h c (List.mem_cons_self _ _)
    simp only [parseRegexFragment, List.map_cons]
    rw [if_neg hc.1, if_neg hc.2, ih (fun x hx => h x (List.mem_cons_of_mem _ hx))]
    rfl

theorem matchAtomsAt_literal :
    ∀ (p s : List Char),
      matchAtomsAt (p.map RegAtom.lit) s = isPrefixL (toLowerL p) (toLowerL s) := by
  intro p
  induction p with
  | nil => intro s; rfl
  | cons a as ih =>
    intro s
    cases s with
    | nil => rfl
    | cons c cs =>
      show (atomMatches (RegAtom.lit a) c && matchAtomsAt (as.map RegAtom.lit) cs)
          = (a.toLower == c.toLower && isPrefixL (toLowerL as) (toLowerL cs))
      rw [ih cs]
      rfl

theorem reSearch_literal :
    ∀ (p s : List Char),
      reSearch (p.map RegAtom.lit) s = containsSubL (toLowerL p) (toLowerL s) := by
  intro p s
  induction s with
  | nil =>
    cases p with
    | nil => rfl
    | cons a as => rfl
  | cons c cs ih =>
    show (matchAtomsAt (p.map RegAtom.lit) (c :: cs) || reSearch (p.map RegAtom.lit) cs)
        = (isPrefixL (toLowerL p) (toLowerL (c :: cs))
            || containsSubL (toLowerL p) (toLowerL cs))
    rw [matchAtomsAt_literal p (c :: cs), ih]

theorem kwMatch_literal (kw : String)
    (hlit : ∀ c ∈ kw.data, c ∉ reMetachars ∧ c ≠ '.') (s : String) :
    kwMatch kw (some s) = containsCI kw s := by
  show (match parseRegexFragment kw.data with
        | some pat => reSearch pat s.data
        | none => false) = containsCI kw s
  rw [parseRegexFragment_literal kw.data hlit]
  show reSearch (kw.data.map RegAtom.lit) s.data = containsCI kw s
  rw [reSearch_literal]
  rfl

/-- C5, counterexample: the keyword passed to the step is a regular
expression, not a literal - with keyword "." the step retains a row whose
text contains no dot at all, so the step does not retain exactly the rows
whose `combined_text` contains the keyword as a case-insensitive
substring. -/
theorem C5_regex_counterexample :
    filterKeyword "." [row2020] = [row2020] ∧
    containsCI "." "MRSA bloodstream infection study" = false := by
  constructor
  · decide
  · decide

/-- C5, amended: for every non-empty keyword made only of plain literal
characters (no regex metacharacter, no wildcard dot), the keyword step
retains exactly the rows whose `combined_text` is present and contains the
keyword as a case-insensitive substring; rows with missing `combined_text`
are excluded; and filtering by "mrsa" and by "MRSA" yields identical row
sets. For keywords with metacharacters the step is a regex search instead
(see the counterexample). -/
theorem C5_keyword_step_literal (kw : String) (t : List Row) (r : Row) (hkw : kw ≠ "")
    (hlit : ∀ c ∈ kw.data, c ∉ reMetachars ∧ c ≠ '.') :
    (r ∈ filterKeyword kw t ↔
      r ∈ t ∧ ∃ s, r.combined_text = some s ∧ containsCI kw s = true) ∧
    (r.combined_text = none → r ∉ filterKeyword kw t) ∧
    filterKeyword "mrsa" t = filterKeyword "MRSA" t := by
  refine ⟨?_, ?_, ?_⟩
  · rw [filterKeyword, if_neg hkw, List.mem_filter]
    constructor
    · rintro ⟨hmem, hmatch⟩
      refine ⟨hmem, ?_⟩
      cases hct : r.combined_text with
      | none => rw [hct] at hmatch; simp [kwMatch] at hmatch
      | some s =>
        rw [hct, kwMatch_literal kw hlit s] at hmatch
        exact ⟨s, rfl, hmatch⟩
    · rintro ⟨hmem, s, hct, hcon⟩
      refine ⟨hmem, ?_⟩
      rw [hct, kwMatch_literal kw hlit s]
      exact hcon
  · intro hnone hmem
    rw [filterKeyword, if_neg hkw, List.mem_filter] at hmem
    have := hmem.2
    rw [hnone] at this
    simp [kwMatch] at this
  · rw [filterKeyword, if_neg (by decide : ("mrsa" : String) ≠ ""),
       filterKeyword, if_neg (by decide : ("MRSA" : String) ≠ "")]
    apply List.filter_congr
    intro r2 _
    cases hct : r2.combined_text with
    | none => rfl
    | some s =>
      rw [kwMatch_literal "mrsa" (by decide) s, kwMatch_literal "MRSA" (by decide) s]
      show containsCI "mrsa" s = containsCI "MRSA" s
      unfold containsCI
      rw [show toLowerL "MRSA".data = toLowerL "mrsa".data from by decide]

/-- C5, witness at a concrete literal keyword and table. -/
theorem C5_witness :
    filterKeyword "mrsa" [row2020, row2019] = filterKeyword "MRSA" [row2020, row2019] :=
  (C5_keyword_step_literal "mrsa" [row2020, row2019] row2020 (by decide) (by decide)).2.2

/-! ### C6 -/

/-- C6: the three filter steps (year range, keyword, topic membership)
commute - every one of the six application orders produces the same table
as the implemented order (year, then keyword, then topic). -/
theorem C6_filter_order_independent (t : List Row) (y0 y1 : Int) (kw : String)
    (sel : List String) :
    filtered_df t y0 y1 kw sel = filterTopics sel (filterYear y0 y1 (filterKeyword kw t)) ∧
    filtered_df t y0 y1 kw sel = filterKeyword kw (filterTopics sel (filterYear y0 y1 t)) ∧
    filtered_df t y0 y1 kw sel = filterKeyword kw (filterYear y0 y1 (filterTopics sel t)) ∧
    filtered_df t y0 y1 kw sel = filterYear y0 y1 (filterTopics sel (filterKeyword kw t)) ∧
    filtered_df t y0 y1 kw sel = filterYear y0 y1 (filterKeyword kw (filterTopics sel t)) := by
  unfold filtered_df
  refine ⟨?_, ?_, ?_, ?_, ?_⟩
  · rw [filterYear_filterKeyword_comm]
  · rw [filterKeyword_filterTopics_comm]
  · rw [filterYear_filterTopics_comm, filterKeyword_filterTopics_comm]
  · rw [filterYear_filterTopics_comm, filterYear_filterKeyword_comm]
  · rw [filterYear_filterKeyword_comm, filterYear_filterTopics_comm,
        filterKeyword_filterTopics_comm]

/-! ### C8 -/

/-- C8: if the input has no `dominant_topic` column the Loader reports the
fatal error and no table is produced - `load_data` returns the error and
can return no `ok` result, so nothing downstream (normalization, filtering,
aggregation, rendering) ever receives data. -/
theorem C8_missing_topic_column_halts (parse : String → Option Date) (raw : RawTable)
    (h : raw.dominant_topic = none) :
    load_data parse raw = .error missingTopicColMsg ∧
    ∀ t : List Row, load_data parse raw ≠ .ok t := by
  have he : load_data parse raw = .error missingTopicColMsg := by
    unfold load_data
    rw [h]
  refine ⟨he, fun t ht => ?_⟩
  rw [he] at ht
  exact Except.noConfusion ht

/-- C8, witness on a concrete table lacking the column. -/
theorem C8_witness : load_data testParse rawNoTopic = .error missingTopicColMsg :=
  (C8_missing_topic_column_halts testParse rawNoTopic rfl).1

/-! ### C10 -/

/-- C10: if every `publication_date` is unparseable the Loader succeeds
with an empty table, and the year-slider bounds - min and max over the
empty `publication_year` column - are missing, so the `int(...)` coercion
at lines 66-67 has no value to produce and the session aborts before any
filter control or chart is shown. -/
theorem C10_all_dates_unparseable (parse : String → Option Date) (raw : RawTable)
    (tc : TopicCol) (hcol : raw.dominant_topic = some tc)
    (hbad : ∀ ds ∈ raw.publication_date, parse ds = none) :
    load_data parse raw = .ok [] ∧ min_pub_year [] = none ∧ max_pub_year [] = none := by
  refine ⟨?_, rfl, rfl⟩
  have hkept : ∀ (α : Type) (cts : List (Option String)) (tvals : List α),
      keptRows parse raw.publication_date cts tvals = [] := by
    intro α cts tvals
    unfold keptRows
    rw [List.filterMap_eq_nil_iff]
    intro p hp
    obtain ⟨ds, rest2⟩ := p
    rw [hbad ds (List.of_mem_zip hp).1]
    rfl
  unfold load_data
  rw [hcol]
  cases tc with
  | numeric ks => simp [hkept]
  | textual ss => simp [hkept]

/-- C10, witness on a concrete table with only unparseable dates. -/
theorem C10_witness : load_data testParse rawAllBad = .ok [] :=
  (C10_all_dates_unparseable testParse rawAllBad (.numeric [0, 1]) rfl (by decide)).1

/-! ### C2 -/

/-- C2: the Loader normalization behaves per path - a numeric column maps
every code `k` to `"Topic " ++ toString (k+1)`; a textual value already of
the form `"Topic <n>"` is left unchanged (idempotence); a textual value of
the form `"Topic_<n>"` has the underscore replaced by a space with no index
shift. `d` ranges over the digit strings `<n>`. -/
theorem C2_normalization_paths (ks : List Int) (ss : List String) (i : Nat) (d : String)
    (hne : d.data ≠ []) (hdig : ∀ c ∈ d.data, c.isDigit = true) :
    normalizeTopics (.numeric ks) = ks.map (fun k => "Topic " ++ toString (k + 1)) ∧
    (ss[i]? = some ("Topic " ++ d) →
      (normalizeTopics (.textual ss))[i]? = some ("Topic " ++ d)) ∧
    (ss[i]? = some ("Topic_" ++ d) →
      (normalizeTopics (.textual ss))[i]? = some ("Topic " ++ d)) := by
  have hund : ('_' : Char) ∉ d.data := by
    intro h
    have := hdig '_' h
    exact absurd this (by decide)
  have hfix : ∀ flag : Bool, normTextualVal flag ("Topic " ++ d) = "Topic " ++ d := by
    intro flag
    cases flag with
    | false => rfl
    | true =>
      show replaceAllStr "Topic_" "Topic " ("Topic " ++ d) = "Topic " ++ d
      unfold replaceAllStr
      have hrepl : replaceAllL "Topic_".data "Topic ".data ("Topic " ++ d).data
          = ("Topic " ++ d).data := by
        apply replaceAllL_eq_self _ _ '_' (by decide)
        rw [String.data_append]
        intro hmem
        rcases List.mem_append.mp hmem with h1 | h2
        · exact absurd h1 (by decide)
        · exact hund h2
      rw [hrepl]
  have hush : normTextualVal true ("Topic_" ++ d) = "Topic " ++ d := by
    show replaceAllStr "Topic_" "Topic " ("Topic_" ++ d) = "Topic " ++ d
    unfold replaceAllStr
    rw [String.data_append]
    rw [replaceAllL_append_self _ _ _ (by decide)]
    rw [replaceAllL_eq_self "Topic_".data "Topic ".data '_' (by decide) d.data hund]
    rw [← String.data_append]
  refine ⟨rfl, ?_, ?_⟩
  · intro hmem
    show (ss.map (normTextualVal (ss.any hasTopicUnderscore)))[i]? = _
    rw [List.getElem?_map, hmem, Option.map_some']
    rw [hfix]
  · intro hmem
    have hin : ("Topic_" ++ d) ∈ ss := by
      obtain ⟨hlt, hval⟩ := List.getElem?_eq_some_iff.mp hmem
      exact hval ▸ List.getElem_mem hlt
    have hflag : ss.any hasTopicUnderscore = true :=
      List.any_eq_true.mpr
        ⟨"Topic_" ++ d, hin, hasTopicUnderscore_of_topicUnderscore d hne hdig⟩
    show (ss.map (normTextualVal (ss.any hasTopicUnderscore)))[i]? = _
    rw [List.getElem?_map, hmem, Option.map_some', hflag, hush]

/-- C2, witness at the concrete column `["Topic_3", "Topic 2"]`. -/
theorem C2_witness :
    (normalizeTopics (.textual ["Topic_3", "Topic 2"]))[0]? = some ("Topic " ++ "3") :=
  (C2_normalization_paths [0] ["Topic_3", "Topic 2"] 0 "3" (by decide)
    (by decide)).2.2 (by decide)

/-! ### C3 -/

/-- C3, counterexample: the Loader accepts a textual `dominant_topic`
column holding `"banana"` and leaves it unchanged, so after normalization
not every value has the form `"Topic <n>"`. -/
theorem C3_invariant_counterexample :
    load_data testParse rawBanana = .ok [rowBanana] ∧
    ¬ isTopicForm rowBanana.dominant_topic := by
  constructor
  · rfl
  · rintro ⟨n, _, h⟩
    have h2 : "banana" = "Topic " ++ toString n := h
    have hd := congrArg String.data h2
    rw [String.data_append] at hd
    rw [show ("banana".data) = 'b' :: ['a', 'n', 'a', 'n', 'a'] from rfl] at hd
    rw [show ("Topic ".data) = 'T' :: ['o', 'p', 'i', 'c', ' '] from rfl] at hd
    rw [List.cons_append] at hd
    injection hd with h1 _
    exact absurd h1 (by decide)

/-- C3, amended: the `"Topic <n>"` (n at least 1) invariant holds for every
row the Loader produces from a numeric `dominant_topic` column whose codes
are non-negative (the upstream 0-based topic indices); a textual column is
only guaranteed to stay a string. -/
theorem C3_numeric_invariant (parse : String → Option Date) (raw : RawTable)
    (ks : List Int) (t : List Row) (hcol : raw.dominant_topic = some (.numeric ks))
    (hpos : ∀ k ∈ ks, 0 ≤ k) (hld : load_data parse raw = .ok t) :
    ∀ r ∈ t, isTopicForm r.dominant_topic := by
  intro r hr
  unfold load_data at hld
  rw [hcol] at hld
  simp only [Except.ok.injEq] at hld
  subst hld
  rw [List.mem_map] at hr
  obtain ⟨q, hq, hrq⟩ := hr
  have hk : q.2.2 ∈ ks := keptRows_topic_mem hq
  obtain ⟨a, ha⟩ := Int.eq_ofNat_of_zero_le (hpos _ hk)
  refine ⟨a + 1, Nat.le_add_left 1 a, ?_⟩
  rw [← hrq]
  show "Topic " ++ toString (q.2.2 + 1) = "Topic " ++ toString (a + 1)
  rw [ha]
  congr 1

/-- C3, witness: a loaded row of the concrete numeric table satisfies the
invariant. -/
theorem C3_witness : isTopicForm loadedNumericRow1.dominant_topic :=
  C3_numeric_invariant testParse rawNumeric [0, 3, 1] loadedNumeric rfl
    (by decide) rfl loadedNumericRow1 (by decide)

/-! ### C7 -/

theorem keptRows_length (parse : String → Option Date) (dates : List String)
    (cts : List (Option String)) (tvals : List α)
    (h1 : cts.length = dates.length) (h2 : tvals.length = dates.length) :
    (keptRows parse dates cts tvals).length
      = dates.countP (fun ds => (parse ds).isSome) := by
  unfold keptRows
  rw [length_filterMap_eq_countP]
  have hpw : ∀ p ∈ dates.zip (cts.zip tvals),
      (((parse p.1).map (fun d => (d, p.2.1, p.2.2))).isSome = true)
        ↔ ((parse p.1).isSome = true) := by
    intro p _
    rw [Option.isSome_map']
  rw [List.countP_congr hpw]
  have hz : dates.length ≤ (cts.zip tvals).length := by
    rw [List.length_zip, h1, h2, Nat.min_self]
  conv_rhs => rw [← List.map_fst_zip dates (cts.zip tvals) hz]
  rw [List.countP_map]
  rfl

/-- C7: every row surviving the Loader has a present `publication_date`
and an integer `publication_year` equal to its calendar year, and the
surviving row count is exactly the number of parseable dates (rows with
unparseable dates are dropped). -/
theorem C7_loader_dates (parse : String → Option Date) (raw : RawTable) (tc : TopicCol)
    (t : List Row) (hcol : raw.dominant_topic = some tc)
    (hlen1 : raw.combined_text.length = raw.publication_date.length)
    (hlen2 : topicLen tc = raw.publication_date.length)
    (hld : load_data parse raw = .ok t) :
    (∀ r ∈ t, r.publication_year = r.publication_date.year) ∧
    t.length = raw.publication_date.countP (fun ds => (parse ds).isSome) := by
  unfold load_data at hld
  rw [hcol] at hld
  cases tc with
  | numeric ks =>
    simp only [Except.ok.injEq] at hld
    subst hld
    constructor
    · intro r hr
      rw [List.mem_map] at hr
      obtain ⟨q, _, hrq⟩ := hr
      rw [← hrq]
      rfl
    · rw [List.length_map]
      exact keptRows_length parse _ _ _ hlen1 (by simpa [topicLen] using hlen2)
  | textual ss =>
    simp only [Except.ok.injEq] at hld
    subst hld
    constructor
    · intro r hr
      rw [List.mem_map] at hr
      obtain ⟨q, _, hrq⟩ := hr
      rw [← hrq]
      rfl
    · rw [List.length_map]
      exact keptRows_length parse _ _ _ hlen1 (by simpa [topicLen] using hlen2)

/-- C7, witness: on the concrete numeric table exactly the two parseable
dates survive. -/
theorem C7_witness :
    loadedNumeric.length
      = rawNumeric.publication_date.countP (fun ds => (testParse ds).isSome) :=
  (C7_loader_dates testParse rawNumeric (.numeric [0, 3, 1]) loadedNumeric rfl
    (by decide) (by decide) rfl).2

/-! ### C4 -/

/-- C4, counterexample: on a table whose single row carries the topic code
`"banana"`, the numeric sort-key extraction fails, so
`yearly_topic_counts` does not complete - refuting the claim that
aggregation completes for every string value of `dominant_topic`. -/
theorem C4_sortkey_counterexample : yearly_topic_counts [rowBanana] = none := by
  rfl

/-- C4, amended: whenever every `dominant_topic` value has an extractable
numeric sort key (in particular every `"Topic <n>"` value, catalogued or
not), `yearly_topic_counts` completes; and in both aggregates every group
whose key is not in the Topic Catalog is labeled `"Unknown"`. -/
theorem C4_aggregation_safety (t : List Row)
    (h : ∀ r ∈ t, (extractTopicId r.dominant_topic).isSome = true) :
    (yearly_topic_counts t).isSome = true ∧
    (∀ g ∈ topic_distribution t,
      TOPIC_LABELS.lookup g.topic = none → g.topic_label = "Unknown") ∧
    (∀ yt, yearly_topic_counts t = some yt →
      ∀ g ∈ yt, TOPIC_LABELS.lookup g.dominant_topic = none →
        g.dominant_topic_label = "Unknown") := by
  refine ⟨?_, ?_, ?_⟩
  · apply optionMapM_isSome
    intro k hk
    rw [Option.isSome_map']
    unfold yearTopicKeys at hk
    rw [List.mem_dedup, List.mem_map] at hk
    obtain ⟨r, hr, hkr⟩ := hk
    rw [← hkr]
    exact h r hr
  · intro g hg hnone
    unfold topic_distribution at hg
    rw [List.mem_map] at hg
    obtain ⟨k, _, hgk⟩ := hg
    rw [← hgk]
    show describeTopic k = "Unknown"
    unfold describeTopic
    rw [show TOPIC_LABELS.lookup k = none from by rw [← hgk] at hnone; exact hnone]
    rfl
  · intro yt hyt g hg hnone
    obtain ⟨k, _, hfk⟩ := optionMapM_mem _ _ _ hyt g hg
    cases hext : extractTopicId k.2 with
    | none => rw [hext] at hfk; simp at hfk
    | some i =>
      rw [hext] at hfk
      simp only [Option.map_some', Option.some.injEq] at hfk
      rw [← hfk]
      show describeTopic k.2 = "Unknown"
      unfold describeTopic
      rw [show TOPIC_LABELS.lookup k.2 = none from by rw [← hfk] at hnone; exact hnone]
      rfl

/-- C4, witness: a well-formed but uncatalogued topic key (`"Topic 11"`)
does not break the aggregation. -/
theorem C4_witness : (yearly_topic_counts [rowTopic11]).isSome = true :=
  (C4_aggregation_safety [rowTopic11] (by decide)).1

/-! ### C9 -/

/-- C9: `topic_distribution` counts sum to the total row count of the
filtered table, and whenever `yearly_topic_counts` completes its counts
summed within each year equal the per-year row counts of the table. -/
theorem C9_counts_sum (t : List Row) (y : Int) (yt : List YTRow)
    (hyt : yearly_topic_counts t = some yt) :
    ((topic_distribution t).map (fun g => g.count)).sum = t.length ∧
    ((yt.filter (fun g => decide (g.publication_year = y))).map
        (fun g => g.count)).sum
      = (t.filter (fun r => decide (r.publication_year = y))).length := by
  constructor
  · unfold topic_distribution topicKeys
    rw [List.map_map]
    have hlen : (t.map (fun r => r.dominant_topic)).length = t.length :=
      List.length_map _ _
    rw [← hlen]
    exact List.sum_map_count_dedup_eq_length _
  · unfold yearly_topic_counts at hyt
    have hproj : yt.map (fun g => (g.publication_year, g.count))
        = (yearTopicKeys t).map
            (fun k => (k.1,
              countEq (t.map (fun r => (r.publication_year, r.dominant_topic))) k)) := by
      refine optionMapM_map_proj _ _ _ ?_ _ _ hyt
      intro k b hkb
      cases hext : extractTopicId k.2 with
      | none => rw [hext] at hkb; simp at hkb
      | some i =>
        rw [hext] at hkb
        simp only [Option.map_some', Option.some.injEq] at hkb
        rw [← hkb]
    calc ((yt.filter (fun g => decide (g.publication_year = y))).map
            (fun g => g.count)).sum
        = (((yt.map (fun g => (g.publication_year, g.count))).filter
              (fun q => decide (q.1 = y))).map (fun q => q.2)).sum := by
          rw [List.filter_map, List.map_map]
          rfl
      _ = (((t.map (fun r => (r.publication_year, r.dominant_topic))).dedup.filter
              (fun k => decide (k.1 = y))).map
              (fun k =>
                countEq (t.map (fun r => (r.publication_year, r.dominant_topic))) k)).sum := by
          rw [hproj, List.filter_map, List.map_map]
          unfold yearTopicKeys
          rfl
      _ = (t.map (fun r => (r.publication_year, r.dominant_topic))).countP
            (fun k => decide (k.1 = y)) :=
          List.sum_map_count_dedup_filter_eq_countP _ _
      _ = t.countP (fun r => decide (r.publication_year = y)) := by
          rw [List.countP_map]
          rfl
      _ = (t.filter (fun r => decide (r.publication_year = y))).length :=
          List.countP_eq_length_filter _ _

/-- C9, witness at a concrete one-row table and its aggregate. -/
theorem C9_witness :
    (([ytTopic11].filter (fun g => decide (g.publication_year = (2020 : Int)))).map
        (fun g => g.count)).sum
      = ([rowTopic11].filter (fun r => decide (r.publication_year = (2020 : Int)))).length :=
  (C9_counts_sum [rowTopic11] 2020 [ytTopic11] (by decide)).2
